import Mathlib

/-
Verification of the AimsgHub knowledge-base ingestion and retrieval core.

This file is a shallow embedding of the relevant parts of
`src/services/vector_store.py`, `src/utils/file_processing.py` and
`src/config.py`.  Pure Python functions become Lean functions; the stateful
ingestion pipeline becomes an explicit event-trace semantics over an abstract
file-system/pointer state; fallible calls (document loading, embedding,
persisting, the database pointer write, directory deletion, HTTP fetches) are
driven by explicit oracles so that every control path of the source can be
examined.  Machine integers are modelled as `Nat` (all quantities involved are
non-negative and no overflow is possible at the sizes the code handles).
-/

namespace AimsgHub

/-! ## Embedding of `src/config.py` -/

/-- Embedding of `BATCH_SIZE = 16` from `src/config.py`. -/
def BATCH_SIZE : Nat := 16

/-- Embedding of `VECTOR_STORE_DIR = "user_vector_stores"` from `src/config.py`. -/
def VECTOR_STORE_DIR : String := "user_vector_stores"

/-! ## Embedding of `src/utils/file_processing.py` -/

/-- Embedding of `calculate_dynamic_chunk_size` from `src/utils/file_processing.py`:

    total_chars = len(text)
    dynamic_chunk_size = min(1000, max(200, total_chars // 20))
    dynamic_chunk_overlap = int(dynamic_chunk_size * 0.15)
    return dynamic_chunk_size, dynamic_chunk_overlap

Python `//` on non-negative ints is `Nat` division.  The overlap line
truncates `dynamic_chunk_size * 0.15` towards zero.  For every
`s ∈ [200, 1000]` the double `s * 0.15` rounds to the double nearest to the
exact rational `3 * s / 20` (the accumulated error `s * |0.15 - fl(0.15)|
≤ 1000 * 5.56e-18 = 5.6e-15` is below half an ulp on each binade that
`s * 0.15` can land in, and the exact value is never closer than `0.05` to a
representable boundary except when it is exactly representable), so
`int(s * 0.15) = ⌊3 * s / 20⌋ = s * 3 / 20` in `Nat` arithmetic. -/
def calculate_dynamic_chunk_size (text : String) : Nat × Nat :=
  let total_chars := text.length
  let dynamic_chunk_size := min 1000 (max 200 (total_chars / 20))
  let dynamic_chunk_overlap := dynamic_chunk_size * 3 / 20
  (dynamic_chunk_size, dynamic_chunk_overlap)

/-- Modelled from the spec: `overlap = round(chunkSize * 0.15)`, i.e. rounding
`3 * chunkSize / 20` to the nearest integer (half up), in exact arithmetic.
This is the specification-side definition used to compare the spec sentence
against the source, which truncates instead of rounding. -/
def spec_round_overlap (chunk_size : Nat) : Nat := (chunk_size * 3 + 10) / 20

/-! ## Embedding of `load_vector_store_safely` (`src/services/vector_store.py`)

The function is I/O bound; its decision structure depends only on whether the
directory exists, on the directory listing, and on whether the subsequent
`Chroma` open plus test query succeeds.  Those three inputs are passed
explicitly.  String results mirror the messages raised by the source. -/

/-- The `required_files` list from `load_vector_store_safely`. -/
def chroma_required_files : List String :=
  ["chroma.sqlite3", "chroma-collections.parquet", "chroma-embeddings.parquet"]

/-- Embedding of `load_vector_store_safely`:

    if not vector_store_path or not os.path.exists(vector_store_path):
        raise ValueError(...)
    required_files = [...]
    existing_files = os.listdir(vector_store_path)
    if not any(f in existing_files for f in required_files):
        raise ValueError("... appears to be incomplete or corrupted")
    vector_store = Chroma(...); vector_store.similarity_search("test", k=1)
    return vector_store

`path_exists` is the `os.path.exists` outcome (a falsy path behaves the same
way), `existing_files` the `os.listdir` result, `chroma_open_ok` whether the
`Chroma` constructor and test query succeed. -/
def load_vector_store_safely (path_exists : Bool) (existing_files : List String)
    (chroma_open_ok : Bool) : Except String Unit :=
  if !path_exists then
    Except.error "Vector store path does not exist"
  else if !(chroma_required_files.any (fun f => existing_files.contains f)) then
    Except.error "Vector store appears to be incomplete or corrupted"
  else if !chroma_open_ok then
    Except.error "Error loading vector store"
  else
    Except.ok ()

/-! ## Embedding of the web crawler (`crawl_links` in `src/utils/file_processing.py`)

The crawler interacts with the network through `requests.get` plus
`BeautifulSoup` link extraction; that pair is modelled by an oracle
`fetch : String → Option (List String)` where `none` means the request raised
(the `except` branch) and `some hrefs` returns the values of the `href`
attributes found on the page.  Python `while` loops are embedded with a fuel
parameter; running out of fuel returns the links accumulated so far, which is
sound for all the safety properties proved below and coincides with the
source for any fuel at least the number of loop iterations. -/

/-- Python `str.startswith`: `starts_with s p` is `s.startswith(p)`. -/
def starts_with (s p : String) : Bool := p.data.isPrefixOf s.data

/-- Python `str.rstrip("/")`: drop every trailing `/`. -/
def rstrip_slash (s : String) : String :=
  String.mk ((s.data.reverse.dropWhile (fun c => c == '/')).reverse)

/-- The per-link rewriting step of `crawl_links`:

    if href.startswith("/"):  # relative link
        href = start_url.rstrip("/") + href -/
def resolve_href (start_url href : String) : String :=
  if starts_with href "/" then rstrip_slash start_url ++ href else href

/-- The `while to_visit and len(all_links) < limit` loop of `crawl_links`.
`visited` is the `visited` set, `to_visit` the stack with its top at the head
(Python appends to and pops from the end of the list), `all_links` the
accumulator.  One fuel unit is spent per loop iteration. -/
def crawl_loop (fetch : String → Option (List String)) (start_url : String) (limit : Nat) :
    Nat → List String → List String → List String → List String
  | 0, _, _, all_links => all_links
  | fuel + 1, visited, to_visit, all_links =>
    match to_visit with
    | [] => all_links
    | url :: rest =>
      if all_links.length < limit then
        if visited.contains url then
          crawl_loop fetch start_url limit fuel visited rest all_links
        else
          match fetch url with
          | none => crawl_loop fetch start_url limit fuel (url :: visited) rest all_links
          | some hrefs =>
            let new_links := (hrefs.map (fun h => resolve_href start_url h)).filter
              (fun h => starts_with h start_url && !((url :: visited).contains h))
            crawl_loop fetch start_url limit fuel (url :: visited)
              (new_links.reverse ++ rest) (all_links ++ [url])
      else all_links

/-- Embedding of `crawl_links(start_url, limit)`. -/
def crawl_links (fetch : String → Option (List String)) (fuel : Nat)
    (start_url : String) (limit : Nat) : List String :=
  crawl_loop fetch start_url limit fuel [] [start_url] []

/-- The default value of the `limit` parameter of `crawl_links`
(`def crawl_links(start_url: str, limit: int = 6)`). -/
def crawl_links_default_limit : Nat := 6

/-- `crawl_links` invoked without an explicit limit, i.e. with its default. -/
def crawl_links_with_default (fetch : String → Option (List String)) (fuel : Nat)
    (start_url : String) : List String :=
  crawl_links fetch fuel start_url crawl_links_default_limit

/-- Helper for `url_origin`: split a URL into the part before `://` and the
part after it. -/
def split_scheme : List Char → List Char → Option (List Char × List Char)
  | _, [] => none
  | acc, ':' :: '/' :: '/' :: rest => some (acc.reverse, rest)
  | acc, c :: rest => split_scheme (c :: acc) rest

/-- Modelled from the spec: the origin of a URL, i.e. the scheme together
with the network location (authority) component, as `urlparse` would extract
them.  Used only to state the same-origin property the spec claims; the
source never computes an origin. -/
def url_origin (u : String) : Option (List Char × List Char) :=
  match split_scheme [] u.data with
  | some (scheme, rest) => some (scheme, rest.takeWhile (fun c => c != '/'))
  | none => none

/-- Modelled from the spec: two URLs are same-origin when both parse and
their origins coincide. -/
def same_origin (a b : String) : Bool :=
  match url_origin a, url_origin b with
  | some oa, some ob => oa == ob
  | _, _ => false

/-! ## Embedding of the website branch of `load_documents`
(`src/utils/file_processing.py`)

    urls = crawl_links(url, limit=6)
    try:
        loader = PlaywrightURLLoader(urls=urls, ...)
        documents = loader.load()
    except ...:
        for link in urls:  # requests + BeautifulSoup fallback
            ... if len(text) > 50: documents.append(Document(...))

`pw = none` models the Playwright loader raising as a whole (triggering the
fallback); `pw = some render` models a successful load in which `render u`
is the document extracted from page `u` (the loader skips pages that fail,
producing at most one document per URL).  `fallback u` is the text the
requests-plus-BeautifulSoup path extracts from `u`, `none` when the request
raises. -/
def load_documents_website (fetch : String → Option (List String)) (fuel : Nat)
    (pw : Option (String → Option String)) (fallback : String → Option String)
    (url : String) : List String :=
  let urls := crawl_links fetch fuel url 6
  match pw with
  | some render => urls.filterMap render
  | none =>
    urls.filterMap (fun link =>
      match fallback link with
      | some text => if 50 < text.length then some text else none
      | none => none)

/-! ## Embedding of `src/services/vector_store.py` -/

/-- The index directory name built at the start of
`create_or_update_vector_store`:

    timestamp = int(time.time())
    new_vs_path = os.path.join(VECTOR_STORE_DIR, f"vs_{user['_id']}_{timestamp}")

`timestamp` is the whole-second clock reading; the f-string renders it in
decimal, which is `Nat.repr`. -/
def vs_dir_name (user_id : String) (timestamp : Nat) : String :=
  "vs_" ++ user_id ++ "_" ++ Nat.repr timestamp

/-- `os.path.join(dir, name)` for the POSIX paths the service uses. -/
def joinPath (dir name : String) : String := dir ++ "/" ++ name

/-- Events of the retrying deletion routine `safe_delete_directory`. -/
inductive DelEv where
  | gcCollect
  | rmtreeCall (attempt : Nat)
  | sleepOneSec
  deriving DecidableEq

/-- The `for attempt in range(max_retries)` loop of `safe_delete_directory`.
`fails attempt` tells whether `shutil.rmtree` raises on that attempt.  The
event list records each `rmtree` call and each `time.sleep(delay)` (the
default delay is 1.0 second).  The first `Nat` argument is the number of
loop iterations still available (`max_retries - attempt`, initially
`max_retries`), making the recursion structural.  The `Option Bool` result
is the return value; `none` is Python falling off the loop (only possible
for `max_retries = 0`, where the source returns `None`). -/
def safe_delete_loop (fails : Nat → Bool) (max_retries : Nat) :
    Nat → Nat → Option Bool × List DelEv
  | 0, _ => (none, [])
  | remaining + 1, attempt =>
    if fails attempt then
      if attempt < max_retries - 1 then
        let r := safe_delete_loop fails max_retries remaining (attempt + 1)
        (r.1, DelEv.rmtreeCall attempt :: DelEv.sleepOneSec :: r.2)
      else (some false, [DelEv.rmtreeCall attempt])
    else (some true, [DelEv.rmtreeCall attempt])

/-- Embedding of `safe_delete_directory(path, max_retries=5, delay=1.0)`:

    if not os.path.exists(path): return True
    gc.collect()
    for attempt in range(max_retries):
        try: shutil.rmtree(path); return True
        except ...:
            if attempt < max_retries - 1: time.sleep(delay)
            else: return False -/
def safe_delete_directory (path_exists : Bool) (fails : Nat → Bool)
    (max_retries : Nat) : Option Bool × List DelEv :=
  if !path_exists then (some true, [])
  else
    let r := safe_delete_loop fails max_retries max_retries 0
    (r.1, DelEv.gcCollect :: r.2)

/-- Helper for the predicate below: check a deletion trace element by
element, remembering the previous event. -/
def gc_before_each_attempt_from (prev : Option DelEv) : List DelEv → Bool
  | [] => true
  | e :: rest =>
    (match e with
     | DelEv.rmtreeCall _ => prev == some DelEv.gcCollect
     | _ => true)
    && gc_before_each_attempt_from (some e) rest

/-- The property the claim states of a deletion trace: every `rmtree`
attempt is immediately preceded by a garbage-collection pass. -/
def gc_before_each_attempt (l : List DelEv) : Bool :=
  gc_before_each_attempt_from none l

/-! ## Embedding of `force_delete_old_vector_stores`

    user_pattern = f"vs_{user_id}_"
    current_pattern = f"vs_{user_id}$"
    for item in os.listdir(VECTOR_STORE_DIR):
        item_path = os.path.join(VECTOR_STORE_DIR, item)
        if exclude_current_path and item_path == exclude_current_path: continue
        if item.startswith(user_pattern) or re.match(current_pattern, item):
            await cleanup_vector_store_resources(item_path)

`listing` is the `os.listdir(VECTOR_STORE_DIR)` snapshot.  The function value
is the ordered list of paths on which deletion is attempted. -/

/-- Python `re.match(f"vs_{user_id}$", item)` for the hexadecimal ObjectId
user ids the service produces (no regex metacharacters): `re.match` anchors
at the start of `item`, and `$` matches at the end of the string or just
before a single newline at the end of the string, so the regex accepts
exactly `"vs_" + user_id` and `"vs_" + user_id + "\n"`. -/
def re_match_current (user_id item : String) : Bool :=
  item == "vs_" ++ user_id || item == "vs_" ++ user_id ++ "\n"

/-- The matching condition of the sweep loop body. -/
def old_store_match (user_id item : String) : Bool :=
  starts_with item ("vs_" ++ user_id ++ "_") || re_match_current user_id item

/-- The `continue` guard: skip `item_path` when an exclusion path was given
and equals it (`exclude = none` models `exclude_current_path=None`). -/
def excluded_path (exclude : Option String) (item_path : String) : Bool :=
  match exclude with
  | some e => item_path == e
  | none => false

/-- The directory names of `listing` whose deletion the sweep attempts, in
iteration order. -/
def force_delete_candidates (user_id : String) (exclude : Option String)
    (listing : List String) : List String :=
  listing.filter (fun item =>
    !excluded_path exclude (joinPath VECTOR_STORE_DIR item)
      && old_store_match user_id item)

/-- Embedding of `force_delete_old_vector_stores(user_id, exclude_current_path)`
as the ordered list of paths passed to `cleanup_vector_store_resources`. -/
def force_delete_old_vector_stores (user_id : String) (exclude : Option String)
    (listing : List String) : List String :=
  (force_delete_candidates user_id exclude listing).map
    (fun item => joinPath VECTOR_STORE_DIR item)

/-! ## Trace semantics of `create_or_update_vector_store`

The pipeline mutates two pieces of state the claims talk about: the set of
index directories under `VECTOR_STORE_DIR` (modelled as the list of directory
names) and the tenant record field `vector_store_path` (modelled as
`Option String`, the full path).  A run of the coroutine is embedded as the
ordered list of observable events its body performs, followed by the events
of the detached background tasks it schedules with `asyncio.create_task`.
The background tasks are modelled as running after the body completes: both
tasks begin with (or lead to) `await asyncio.sleep(2)` inside
`cleanup_vector_store_resources` before touching the disk, while the body has
no further suspension point of comparable length before returning or raising.

Fallible external calls are driven by an `IngestOracle`:
`documents` is the `load_documents` outcome (`none` = it raised, covering
invalid URLs, unreadable files and unreachable sites), `splitDocs` the
`RecursiveCharacterTextSplitter.split_documents` result on those documents,
`embedOk i` whether `vector_store.add_documents` succeeds on batch `i`,
`persistOk` whether `vector_store.persist()` succeeds, `dbOk` whether
`users_collection.update_one` succeeds, and `delOk p` whether
`shutil.rmtree` eventually succeeds on `p` inside `safe_delete_directory`. -/

/-- Observable events of an ingestion run. -/
inductive Ev where
  | createDir (name : String)
  | addBatch (batch : List String)
  | persistStore
  | pointerWrite (path : String)
  | removeDir (path : String)
  deriving DecidableEq

/-- Detached background tasks scheduled with `asyncio.create_task`. -/
inductive BgTask where
  | cleanupPath (path : String)
  | orphanSweep (user_id : String) (exclude : String)
  deriving DecidableEq

/-- Oracle for the fallible steps of one ingestion run. -/
structure IngestOracle where
  documents : Option (List String)
  splitDocs : List String → List String
  embedOk : Nat → Bool
  persistOk : Bool
  dbOk : Bool
  delOk : String → Bool

/-- Result of the coroutine body: its event trace, its return value (`none`
when it raised `HTTPException`), and the background tasks it scheduled. -/
structure BodyResult where
  events : List Ev
  result : Option String
  tasks : List BgTask

/-- The batch slicing `split_docs[i:i + BATCH_SIZE]` of the insertion loop,
realised with a fuel equal to the list length (each step consumes at least
one element because the batch size is positive). -/
def batches_go {α : Type} (bs : Nat) : Nat → List α → List (List α)
  | 0, _ => []
  | _ + 1, [] => []
  | fuel + 1, x :: xs => List.take bs (x :: xs) :: batches_go bs fuel (List.drop bs (x :: xs))

/-- `batches bs l` is the list of consecutive slices of `l` of size `bs`
(the last slice may be shorter), mirroring
`for i in range(0, len(split_docs), BATCH_SIZE)`. -/
def batches {α : Type} (bs : Nat) (l : List α) : List (List α) :=
  batches_go bs l.length l

/-- The insertion loop: one `add_documents` call per batch, stopping at the
first failing batch.  Returns the events of the successful insertions and
whether every batch succeeded. -/
def add_batches (embedOk : Nat → Bool) : List (List String) → Nat → List Ev × Bool
  | [], _ => ([], true)
  | b :: bs, i =>
    if embedOk i then
      let r := add_batches embedOk bs (i + 1)
      (Ev.addBatch b :: r.1, r.2)
    else ([], false)

/-- The body of `create_or_update_vector_store(user, knowledge_source,
source_type)` for a non-empty knowledge source, lines 161-241 of
`src/services/vector_store.py`.  `old_ptr` is `user.get('vector_store_path')`
and `fs0` the directories existing under `VECTOR_STORE_DIR` when the body
runs.  Every `raise`/`except` path yields `result = none`; note that the two
`asyncio.create_task` calls happen before the `update_one` pointer write, so
a failing pointer write still leaves the cleanup tasks scheduled. -/
def ingest_body (user_id : String) (ts : Nat) (old_ptr : Option String)
    (fs0 : List String) (o : IngestOracle) : BodyResult :=
  match o.documents with
  | none => ⟨[], none, []⟩
  | some docs =>
    if docs.isEmpty then ⟨[], none, []⟩
    else
      let split_docs := o.splitDocs docs
      if split_docs.isEmpty then ⟨[], none, []⟩
      else
        let name := vs_dir_name user_id ts
        let new_vs_path := joinPath VECTOR_STORE_DIR name
        let br := add_batches o.embedOk (batches BATCH_SIZE split_docs) 0
        if !br.2 then ⟨Ev.createDir name :: br.1, none, []⟩
        else if !o.persistOk then ⟨Ev.createDir name :: br.1, none, []⟩
        else
          let tasks :=
            match old_ptr with
            | some old =>
              if fs0.any (fun n => joinPath VECTOR_STORE_DIR n == old) then
                [BgTask.cleanupPath old, BgTask.orphanSweep user_id new_vs_path]
              else []
            | none => []
          if !o.dbOk then
            ⟨Ev.createDir name :: br.1 ++ [Ev.persistStore], none, tasks⟩
          else
            ⟨Ev.createDir name :: br.1 ++ [Ev.persistStore, Ev.pointerWrite new_vs_path],
              some new_vs_path, tasks⟩

/-- `cleanup_vector_store_resources(path)`: after the 2-second sleep it runs
`safe_delete_directory(path)`, which first checks `os.path.exists`.  A
successful deletion removes the directory and is recorded; a deletion whose
five retries all fail leaves the directory in place (non-fatally). -/
def run_cleanup (delOk : String → Bool) (fs : List String) (path : String) :
    List String × List Ev :=
  if fs.any (fun n => joinPath VECTOR_STORE_DIR n == path) then
    if delOk path then
      (fs.filter (fun n => !(joinPath VECTOR_STORE_DIR n == path)), [Ev.removeDir path])
    else (fs, [])
  else (fs, [])

/-- Run one background task against the current directory state. -/
def run_bg_task (delOk : String → Bool) (fs : List String) :
    BgTask → List String × List Ev
  | BgTask.cleanupPath p => run_cleanup delOk fs p
  | BgTask.orphanSweep user_id exclude =>
    (force_delete_candidates user_id (some exclude) fs).foldl
      (fun st item =>
        let r := run_cleanup delOk st.1 (joinPath VECTOR_STORE_DIR item)
        (r.1, st.2 ++ r.2))
      (fs, [])

/-- Run the scheduled background tasks in creation order. -/
def run_bg_tasks (delOk : String → Bool) : List BgTask → List String → List String × List Ev
  | [], fs => (fs, [])
  | t :: ts, fs =>
    let r := run_bg_task delOk fs t
    let r2 := run_bg_tasks delOk ts r.1
    (r2.1, r.2 ++ r2.2)

/-- Effect of one event on the abstract state (directories, pointer). -/
def apply_ev (st : List String × Option String) (e : Ev) : List String × Option String :=
  match e with
  | Ev.createDir n => (st.1 ++ [n], st.2)
  | Ev.removeDir p => (st.1.filter (fun n => !(joinPath VECTOR_STORE_DIR n == p)), st.2)
  | Ev.pointerWrite p => (st.1, some p)
  | _ => st

/-- Fold a trace over an initial state. -/
def run_events (fs0 : List String) (ptr0 : Option String) (evs : List Ev) :
    List String × Option String :=
  evs.foldl apply_ev (fs0, ptr0)

/-- A full ingestion run: the body trace followed by the traces of the
background tasks it scheduled, together with the value the call returns. -/
def ingest_run (user_id : String) (ts : Nat) (old_ptr : Option String)
    (fs0 : List String) (o : IngestOracle) : List Ev × Option String :=
  let b := ingest_body user_id ts old_ptr fs0 o
  let fs1 := (run_events fs0 old_ptr b.events).1
  let bg := run_bg_tasks o.delOk b.tasks fs1
  (b.events ++ bg.2, b.result)

/-- Directory and pointer state after the full run (body plus background
tasks) has quiesced. -/
def ingest_final (user_id : String) (ts : Nat) (old_ptr : Option String)
    (fs0 : List String) (o : IngestOracle) : List String × Option String :=
  run_events fs0 old_ptr (ingest_run user_id ts old_ptr fs0 o).1

/-- Scan a trace and report whether some directory is removed at a moment
when the tenant pointer still references exactly that path. -/
def removed_while_active (ptr0 : Option String) (evs : List Ev) : Bool :=
  (evs.foldl
    (fun st e =>
      match e with
      | Ev.pointerWrite p => (some p, st.2)
      | Ev.removeDir p => (st.1, st.2 || st.1 == some p)
      | _ => st)
    (ptr0, false)).2

/-! ## Auxiliary definitions used by the proofs -/

/-- Numeric value of a decimal digit character. -/
def dec_digit_val (c : Char) : Nat := c.toNat - 48

/-- Value of a decimal digit string (most significant digit first). -/
def digits_val (l : List Char) : Nat :=
  l.foldl (fun a c => 10 * a + dec_digit_val c) 0

/-- Oracle of a run in which every step succeeds except the final
`users_collection.update_one` pointer write. -/
def pointer_write_fails_oracle : IngestOracle :=
  ⟨some ["doc"], fun ds => ds, fun _ => true, true, false, fun _ => true⟩

/-- Oracle of a fully successful run. -/
def success_oracle : IngestOracle :=
  ⟨some ["doc a", "doc b"], fun ds => ds, fun _ => true, true, true, fun _ => true⟩

/-- A two-page web in which the seed page links to a URL on a different host
whose string happens to extend the seed URL. -/
def prefix_trap_fetch : String → Option (List String) := fun u =>
  if u == "http://a.com" then some ["http://a.common.org/x"]
  else if u == "http://a.common.org/x" then some []
  else none

/-- A small web used for witness runs: the seed links to one same-site page. -/
def small_site_fetch : String → Option (List String) := fun u =>
  if u == "http://w.org" then some ["/a"]
  else if u == "http://w.org/a" then some []
  else none

/-! # Theorems

## C4 — dynamic chunk sizing -/

/-- Unfolding equation for `calculate_dynamic_chunk_size`. -/
theorem calculate_dynamic_chunk_size_eq (text : String) :
    calculate_dynamic_chunk_size text =
      (min 1000 (max 200 (text.length / 20)),
        min 1000 (max 200 (text.length / 20)) * 3 / 20) := rfl

/-- C4 counterexample: at total length 4340 the computed chunk size is 217
and the code returns overlap `int(217 * 0.15) = 32`, while the spec formula
`round(217 * 0.15) = round(32.55)` gives 33, so
`overlap == round(chunkSize * 0.15)` fails. -/
theorem chunk_overlap_counterexample :
    (calculate_dynamic_chunk_size (String.mk (List.replicate 4340 'a'))).1 = 217 ∧
    (calculate_dynamic_chunk_size (String.mk (List.replicate 4340 'a'))).2 = 32 ∧
    spec_round_overlap 217 = 33 := by
  have hlen : (String.mk (List.replicate 4340 'a')).length = 4340 := by
    simp only [String.length, List.length_replicate]
  rw [calculate_dynamic_chunk_size_eq, hlen]
  norm_num [spec_round_overlap]

/-- C4 amended: for every input text the chunk size is
`clamp(totalLength / 20, 200, 1000)`, hence lies in `[200, 1000]`, and the
overlap is `⌊chunkSize * 0.15⌋` (truncation, not rounding to nearest). -/
theorem chunk_size_clamp_overlap_floor (text : String) :
    (calculate_dynamic_chunk_size text).1 = min 1000 (max 200 (text.length / 20)) ∧
    200 ≤ (calculate_dynamic_chunk_size text).1 ∧
    (calculate_dynamic_chunk_size text).1 ≤ 1000 ∧
    (calculate_dynamic_chunk_size text).2 = (calculate_dynamic_chunk_size text).1 * 3 / 20 := by
  rw [calculate_dynamic_chunk_size_eq]
  refine ⟨rfl, ?_, ?_, rfl⟩ <;> omega

/-! ## C3 — index completeness check on load -/

/-- C3 counterexample: a directory holding only `chroma.sqlite3` does not
contain the full expected artifact set, yet `load_vector_store_safely`
accepts it (the source requires `any`, not all, of the required files). -/
theorem load_check_counterexample :
    load_vector_store_safely true ["chroma.sqlite3"] true = Except.ok () ∧
    "chroma-collections.parquet" ∈ chroma_required_files ∧
    "chroma-collections.parquet" ∉ (["chroma.sqlite3"] : List String) :=
  ⟨rfl, by decide, by decide⟩

/-- C3 amended: a version is considered loadable only if its directory
contains at least one of the expected artifact files, and a directory that
contains none of them fails fast with the descriptive
incomplete-or-corrupted error instead of loading. -/
theorem load_check_requires_artifact (path_exists chroma_open_ok : Bool)
    (existing_files : List String) :
    (load_vector_store_safely path_exists existing_files chroma_open_ok = Except.ok () →
      ∃ f ∈ chroma_required_files, f ∈ existing_files) ∧
    ((∀ f ∈ chroma_required_files, f ∉ existing_files) →
      load_vector_store_safely true existing_files chroma_open_ok =
        Except.error "Vector store appears to be incomplete or corrupted") := by
  constructor
  · intro h
    cases path_exists with
    | false => simp [load_vector_store_safely] at h
    | true =>
      by_cases ha : ∃ f ∈ chroma_required_files, f ∈ existing_files
      · exact ha
      · exfalso
        have ha2 : (chroma_required_files.any fun f => existing_files.contains f) = false := by
          rw [List.any_eq_false]
          intro f hf
          intro hc
          exact ha ⟨f, hf, by simpa using hc⟩
        unfold load_vector_store_safely at h
        rw [ha2] at h
        simp at h
  · intro hall
    have ha2 : (chroma_required_files.any fun f => existing_files.contains f) = false := by
      rw [List.any_eq_false]
      intro f hf
      intro hc
      exact hall f hf (by simpa using hc)
    unfold load_vector_store_safely
    rw [ha2]
    simp

/-- Witness for the amended C3 theorem at concrete directory listings. -/
theorem load_check_requires_artifact_witness :
    (∃ f ∈ chroma_required_files, f ∈ (["chroma.sqlite3"] : List String)) ∧
    load_vector_store_safely true ["somefile.txt"] true =
      Except.error "Vector store appears to be incomplete or corrupted" :=
  ⟨(load_check_requires_artifact true true ["chroma.sqlite3"]).1 rfl,
   (load_check_requires_artifact true true ["somefile.txt"]).2 (by decide)⟩

/-! ## C7 — retrying deletion of a stale index directory -/

/-- C7 counterexample: with the directory present and the first `rmtree`
attempt failing (a transient lock) while the second succeeds, the trace is
`[gc, rmtree 0, sleep 1s, rmtree 1]`: the single garbage-collection pass
happens before the first attempt only, so "a garbage-collection pass is
forced before each attempt" is false (attempt 1 is preceded by the sleep). -/
theorem delete_retry_gc_counterexample :
    (safe_delete_directory true (fun a => a == 0) 5).2 =
      [DelEv.gcCollect, DelEv.rmtreeCall 0, DelEv.sleepOneSec, DelEv.rmtreeCall 1] ∧
    gc_before_each_attempt (safe_delete_directory true (fun a => a == 0) 5).2 = false ∧
    (safe_delete_directory true (fun a => a == 0) 5).1 = some true := by
  decide

/-- C7 amended: with the default `max_retries = 5` and an existing
directory, the routine makes attempts `0, ..., k` for some `k < 5` (so at
most 5 attempts), with exactly one 1-second sleep between consecutive
attempts and one garbage-collection pass before the first attempt (not
before each attempt); it returns `True` exactly when attempt `k` succeeded,
it returns `False` (without raising) only after the fifth failed attempt,
and every attempt before `k` failed. -/
theorem safe_delete_retry_behavior (fails : Nat → Bool) :
    ∃ k : Nat, k < 5 ∧
      (safe_delete_directory true fails 5).2 =
        DelEv.gcCollect ::
          List.intersperse DelEv.sleepOneSec ((List.range (k + 1)).map DelEv.rmtreeCall) ∧
      (safe_delete_directory true fails 5).1 = some (!fails k) ∧
      (∀ j, j < k → fails j = true) ∧
      (fails k = true → k = 4) := by
  cases h0 : fails 0 with
  | false =>
    refine ⟨0, by norm_num, ?_, ?_, ?_, ?_⟩
    · simp [safe_delete_directory, safe_delete_loop, h0]
      decide
    · simp [safe_delete_directory, safe_delete_loop, h0]
    · intro j hj
      exact absurd hj (Nat.not_lt_zero j)
    · simp [h0]
  | true =>
    cases h1 : fails 1 with
    | false =>
      refine ⟨1, by norm_num, ?_, ?_, ?_, ?_⟩
      · simp [safe_delete_directory, safe_delete_loop, h0, h1]
        decide
      · simp [safe_delete_directory, safe_delete_loop, h0, h1]
      · intro j hj
        interval_cases j
        exact h0
      · simp [h1]
    | true =>
      cases h2 : fails 2 with
      | false =>
        refine ⟨2, by norm_num, ?_, ?_, ?_, ?_⟩
        · simp [safe_delete_directory, safe_delete_loop, h0, h1, h2]
          decide
        · simp [safe_delete_directory, safe_delete_loop, h0, h1, h2]
        · intro j hj
          interval_cases j <;> assumption
        · simp [h2]
      | true =>
        cases h3 : fails 3 with
        | false =>
          refine ⟨3, by norm_num, ?_, ?_, ?_, ?_⟩
          · simp [safe_delete_directory, safe_delete_loop, h0, h1, h2, h3]
            decide
          · simp [safe_delete_directory, safe_delete_loop, h0, h1, h2, h3]
          · intro j hj
            interval_cases j <;> assumption
          · simp [h3]
        | true =>
          cases h4 : fails 4 with
          | false =>
            refine ⟨4, by norm_num, ?_, ?_, ?_, ?_⟩
            · simp [safe_delete_directory, safe_delete_loop, h0, h1, h2, h3, h4]
              decide
            · simp [safe_delete_directory, safe_delete_loop, h0, h1, h2, h3, h4]
            · intro j hj
              interval_cases j <;> assumption
            · simp [h4]
          | true =>
            refine ⟨4, by norm_num, ?_, ?_, ?_, ?_⟩
            · simp [safe_delete_directory, safe_delete_loop, h0, h1, h2, h3, h4]
              decide
            · simp [safe_delete_directory, safe_delete_loop, h0, h1, h2, h3, h4]
            · intro j hj
              interval_cases j <;> assumption
            · intro
              rfl

/-- Witness for the amended C7 theorem with a concrete failure pattern
(first two attempts fail, the third succeeds). -/
theorem safe_delete_retry_behavior_witness :
    ∃ k : Nat, k < 5 ∧
      (safe_delete_directory true (fun a => decide (a < 2)) 5).2 =
        DelEv.gcCollect ::
          List.intersperse DelEv.sleepOneSec ((List.range (k + 1)).map DelEv.rmtreeCall) ∧
      (safe_delete_directory true (fun a => decide (a < 2)) 5).1 = some (!decide (k < 2)) ∧
      (∀ j, j < k → decide (j < 2) = true) ∧
      (decide (k < 2) = true → k = 4) :=
  safe_delete_retry_behavior (fun a => decide (a < 2))

/-! ## C9 — the orphan sweep deletes exactly the matching directories -/

/-- `joinPath VECTOR_STORE_DIR` is injective on directory names. -/
theorem joinPath_inj {a b : String}
    (h : joinPath VECTOR_STORE_DIR a = joinPath VECTOR_STORE_DIR b) : a = b := by
  have hd : (VECTOR_STORE_DIR ++ "/").data ++ a.data =
      (VECTOR_STORE_DIR ++ "/").data ++ b.data := by
    have h2 := congrArg String.data h
    simpa [joinPath, String.data_append] using h2
  have h3 := List.append_cancel_left hd
  cases a with
  | mk da =>
    cases b with
    | mk db => exact congrArg String.mk (by simpa using h3)

/-- C9 counterexample: a directory named `vs_68b0` followed by a newline
neither starts with the tenant prefix `vs_68b0_` nor equals the exact name
`vs_68b0`, yet the sweep for tenant `68b0` attempts to delete it, because
`re.match("vs_68b0$", item)` also accepts a name with a single trailing
newline (`$` matches just before a final newline). -/
theorem sweep_newline_counterexample :
    force_delete_old_vector_stores "68b0" none ["vs_68b0\n"] =
      [joinPath VECTOR_STORE_DIR "vs_68b0\n"] ∧
    starts_with "vs_68b0\n" ("vs_" ++ "68b0" ++ "_") = false ∧
    "vs_68b0\n" ≠ "vs_" ++ "68b0" := by
  decide

/-- C9 amended: the sweep attempts deletion of exactly those listed
directories whose names start with `vs_{user_id}_`, equal `vs_{user_id}`, or
equal `vs_{user_id}` with a single trailing newline, and that are not the
excluded current path; every other directory — in particular any other
tenant directory and the excluded active path — is left untouched. -/
theorem sweep_targets_exactly (user_id : String) (exclude : Option String)
    (listing : List String) :
    (∀ item ∈ listing,
      (joinPath VECTOR_STORE_DIR item ∈
          force_delete_old_vector_stores user_id exclude listing ↔
        (excluded_path exclude (joinPath VECTOR_STORE_DIR item) = false ∧
          (starts_with item ("vs_" ++ user_id ++ "_") = true ∨
            item = "vs_" ++ user_id ∨ item = "vs_" ++ user_id ++ "\n")))) ∧
    (∀ p ∈ force_delete_old_vector_stores user_id exclude listing,
      ∃ item ∈ listing, p = joinPath VECTOR_STORE_DIR item ∧
        excluded_path exclude p = false ∧ old_store_match user_id item = true) := by
  constructor
  · intro item hmem
    constructor
    · intro hp
      rcases List.mem_map.mp hp with ⟨it2, hit2, heq⟩
      have hii : it2 = item := joinPath_inj heq
      subst hii
      have hf := (List.mem_filter.mp hit2).2
      simp only [Bool.and_eq_true, Bool.not_eq_true', old_store_match, re_match_current,
        Bool.or_eq_true, beq_iff_eq] at hf
      exact ⟨hf.1, hf.2⟩
    · intro hcond
      apply List.mem_map_of_mem
      apply List.mem_filter.mpr
      refine ⟨hmem, ?_⟩
      simp only [Bool.and_eq_true, Bool.not_eq_true', old_store_match, re_match_current,
        Bool.or_eq_true, beq_iff_eq]
      exact ⟨hcond.1, hcond.2⟩
  · intro p hp
    rcases List.mem_map.mp hp with ⟨item, hit, heq⟩
    have h2 := List.mem_filter.mp hit
    have hf := h2.2
    simp only [Bool.and_eq_true, Bool.not_eq_true'] at hf
    exact ⟨item, h2.1, heq.symm, heq ▸ hf.1, hf.2⟩

/-- Witness for the amended C9 theorem on a concrete listing: the old store
of tenant `u1` is attempted, while another tenant directory is untouched. -/
theorem sweep_targets_exactly_witness :
    (joinPath VECTOR_STORE_DIR "vs_u1_10" ∈
      force_delete_old_vector_stores "u1" (some (joinPath VECTOR_STORE_DIR "vs_u1_99"))
        ["vs_u1_10", "vs_u2_3", "vs_u1_99"]) ∧
    joinPath VECTOR_STORE_DIR "vs_u2_3" ∉
      force_delete_old_vector_stores "u1" (some (joinPath VECTOR_STORE_DIR "vs_u1_99"))
        ["vs_u1_10", "vs_u2_3", "vs_u1_99"] := by
  constructor
  · exact ((sweep_targets_exactly "u1" (some (joinPath VECTOR_STORE_DIR "vs_u1_99"))
      ["vs_u1_10", "vs_u2_3", "vs_u1_99"]).1 "vs_u1_10" (by decide)).mpr
      ⟨by decide, Or.inl (by decide)⟩
  · intro hp
    have h := ((sweep_targets_exactly "u1" (some (joinPath VECTOR_STORE_DIR "vs_u1_99"))
      ["vs_u1_10", "vs_u2_3", "vs_u1_99"]).1 "vs_u2_3" (by decide)).mp hp
    revert h
    decide

/-! ## C6 — distinctness of index directory names

The claims need that the decimal rendering `Nat.repr` is injective; this is
proved by evaluating a digit string back to its value. -/

/-- The accumulator of `Nat.toDigitsCore` is simply appended. -/
theorem toDigitsCore_append (fuel : Nat) :
    ∀ (n : Nat) (ds : List Char),
      Nat.toDigitsCore 10 fuel n ds = Nat.toDigitsCore 10 fuel n [] ++ ds := by
  induction fuel with
  | zero => intro n ds; simp [Nat.toDigitsCore]
  | succ fuel ih =>
    intro n ds
    by_cases h : n / 10 = 0
    · simp [Nat.toDigitsCore, h]
    · simp only [Nat.toDigitsCore, h, if_false]
      rw [ih (n / 10) (Nat.digitChar (n % 10) :: ds),
        ih (n / 10) [Nat.digitChar (n % 10)]]
      simp

/-- Appending one digit multiplies the value by ten and adds the digit. -/
theorem digits_val_append (l : List Char) (c : Char) :
    digits_val (l ++ [c]) = 10 * digits_val l + dec_digit_val c := by
  simp [digits_val, List.foldl_append]

/-- Value of the character produced for one digit. -/
theorem digit_char_val : ∀ k, k < 10 → dec_digit_val (Nat.digitChar k) = k := by
  decide

/-- `Nat.toDigitsCore` produces the decimal digit string of its argument:
evaluating it back yields the argument. -/
theorem toDigitsCore_val (fuel : Nat) :
    ∀ n, n < 10 ^ fuel → digits_val (Nat.toDigitsCore 10 fuel n []) = n := by
  induction fuel with
  | zero =>
    intro n hn
    have hz : n = 0 := by omega
    subst hz
    simp [Nat.toDigitsCore, digits_val]
  | succ fuel ih =>
    intro n hn
    by_cases h : n / 10 = 0
    · have hlt : n < 10 := by omega
      have h1 : n % 10 = n := Nat.mod_eq_of_lt hlt
      simp only [Nat.toDigitsCore, h, if_true]
      have hv := digit_char_val (n % 10) (Nat.mod_lt n (by norm_num))
      have hone : digits_val [Nat.digitChar (n % 10)] =
          dec_digit_val (Nat.digitChar (n % 10)) := by
        simp [digits_val]
      rw [hone, hv]
      exact h1
    · have hdiv : n / 10 < 10 ^ fuel := by
        rw [pow_succ] at hn
        omega
      simp only [Nat.toDigitsCore, h, if_false]
      rw [toDigitsCore_append fuel (n / 10) [Nat.digitChar (n % 10)],
        digits_val_append, ih (n / 10) hdiv,
        digit_char_val (n % 10) (Nat.mod_lt n (by norm_num))]
      omega

/-- Evaluating the decimal rendering of `n` yields `n`. -/
theorem nat_repr_val (n : Nat) : digits_val (Nat.repr n).data = n := by
  have hb : n < 10 ^ (n + 1) :=
    lt_of_lt_of_le (Nat.lt_pow_self (by norm_num) n)
      (Nat.pow_le_pow_right (by norm_num) (Nat.le_succ n))
  show digits_val ((Nat.toDigits 10 n).asString).data = n
  show digits_val (Nat.toDigitsCore 10 (n + 1) n []) = n
  exact toDigitsCore_val (n + 1) n hb

/-- The decimal rendering of a natural number is injective. -/
theorem nat_repr_injective {m n : Nat} (h : Nat.repr m = Nat.repr n) : m = n := by
  have h2 := congrArg (fun s => digits_val s.data) h
  simpa [nat_repr_val] using h2

/-- C6 counterexample: the claim that any two successive builds for the same
tenant get distinct directory names fails when both builds read the same
whole-second clock value (`int(time.time())` has one-second resolution, so a
rapid rebuild within the same second collides). -/
theorem index_name_collision_counterexample :
    ¬ (∀ (user_id : String) (t1 t2 : Nat), t1 ≤ t2 →
        vs_dir_name user_id t1 ≠ vs_dir_name user_id t2) := by
  intro h
  exact h "68b7a2" 1700000000 1700000000 le_rfl rfl

/-- C6 amended: two builds for the same tenant get distinct directory names
exactly when their whole-second timestamps differ; builds falling in the
same clock second produce the identical name. -/
theorem vs_dir_name_distinct_iff_ts (user_id : String) (t1 t2 : Nat) (h : t1 ≠ t2) :
    vs_dir_name user_id t1 ≠ vs_dir_name user_id t2 := by
  intro he
  apply h
  apply nat_repr_injective
  have hd := congrArg String.data he
  simp only [vs_dir_name, String.data_append, List.append_assoc] at hd
  have h1 := List.append_cancel_left hd
  have h2 := List.append_cancel_left h1
  have h3 := List.append_cancel_left h2
  cases hr1 : Nat.repr t1 with
  | mk d1 =>
    cases hr2 : Nat.repr t2 with
    | mk d2 =>
      rw [hr1, hr2] at h3
      exact congrArg String.mk (by simpa using h3)

/-- Witness for the amended C6 theorem: one second apart, names differ. -/
theorem vs_dir_name_distinct_witness :
    vs_dir_name "68b7a2" 1700000000 ≠ vs_dir_name "68b7a2" 1700000001 :=
  vs_dir_name_distinct_iff_ts "68b7a2" 1700000000 1700000001 (by decide)

/-! ## C5 and C10 — crawler properties -/

/-- Main safety invariant of the crawl loop: whatever the fuel and the
current state, if the accumulator is duplicate-free, contained in the
visited set, within the limit, made of URLs that extend the seed (or are
the seed) and were fetched successfully, and the frontier only holds URLs
that extend the seed (or are the seed), then the final result keeps all
those properties. -/
theorem crawl_loop_invariant (fetch : String → Option (List String))
    (start_url : String) (limit : Nat) :
    ∀ (fuel : Nat) (visited to_visit all_links : List String),
      all_links.Nodup →
      (∀ u ∈ all_links, u ∈ visited) →
      (∀ u ∈ all_links, (starts_with u start_url = true ∨ u = start_url) ∧ fetch u ≠ none) →
      (∀ u ∈ to_visit, starts_with u start_url = true ∨ u = start_url) →
      all_links.length ≤ limit →
      (crawl_loop fetch start_url limit fuel visited to_visit all_links).Nodup ∧
      (∀ u ∈ crawl_loop fetch start_url limit fuel visited to_visit all_links,
        (starts_with u start_url = true ∨ u = start_url) ∧ fetch u ≠ none) ∧
      (crawl_loop fetch start_url limit fuel visited to_visit all_links).length ≤ limit := by
  intro fuel
  induction fuel with
  | zero =>
    intro visited to_visit all_links h1 _h2 h3 _h4 h5
    exact ⟨h1, h3, h5⟩
  | succ fuel ih =>
    intro visited to_visit all_links h1 h2 h3 h4 h5
    cases to_visit with
    | nil =>
      simp only [crawl_loop]
      exact ⟨h1, h3, h5⟩
    | cons url rest =>
      simp only [crawl_loop]
      by_cases hlen : all_links.length < limit
      · rw [if_pos hlen]
        by_cases hv : visited.contains url = true
        · rw [if_pos hv]
          exact ih visited rest all_links h1 h2 h3
            (fun u hu => h4 u (List.mem_cons_of_mem _ hu)) h5
        · rw [if_neg hv]
          cases hf : fetch url with
          | none =>
            exact ih (url :: visited) rest all_links h1
              (fun u hu => List.mem_cons_of_mem _ (h2 u hu)) h3
              (fun u hu => h4 u (List.mem_cons_of_mem _ hu)) h5
          | some hrefs =>
            have hnotmem : url ∉ all_links := by
              intro hmem
              exact hv (by simpa [List.contains, List.elem_iff] using h2 url hmem)
            apply ih
            · simp only [List.nodup_append, List.nodup_cons, List.nodup_nil]
              refine ⟨h1, ⟨by simp, trivial⟩, ?_⟩
              intro a ha hb
              rw [List.mem_singleton] at hb
              subst hb
              exact hnotmem ha
            · intro u hu
              rcases List.mem_append.mp hu with hul | hur
              · exact List.mem_cons_of_mem _ (h2 u hul)
              · rw [List.mem_singleton] at hur
                subst hur
                exact List.mem_cons_self u visited
            · intro u hu
              rcases List.mem_append.mp hu with hul | hur
              · exact h3 u hul
              · rw [List.mem_singleton] at hur
                subst hur
                refine ⟨h4 u (List.mem_cons_self u rest), ?_⟩
                rw [hf]
                simp
            · intro u hu
              rcases List.mem_append.mp hu with hul | hur
              · rw [List.mem_reverse] at hul
                have hcond := (List.mem_filter.mp hul).2
                rw [Bool.and_eq_true] at hcond
                exact Or.inl hcond.1
              · exact h4 u (List.mem_cons_of_mem _ hur)
            · rw [List.length_append, List.length_singleton]
              omega
      · rw [if_neg hlen]
        exact ⟨h1, h3, h5⟩

/-- Properties of `crawl_links` obtained from the loop invariant at the
initial state. -/
theorem crawl_links_props (fetch : String → Option (List String)) (fuel : Nat)
    (start_url : String) (limit : Nat) :
    (crawl_links fetch fuel start_url limit).Nodup ∧
    (∀ u ∈ crawl_links fetch fuel start_url limit,
      (starts_with u start_url = true ∨ u = start_url) ∧ fetch u ≠ none) ∧
    (crawl_links fetch fuel start_url limit).length ≤ limit :=
  crawl_loop_invariant fetch start_url limit fuel [] [start_url] []
    List.nodup_nil (by simp) (by simp)
    (fun u hu => Or.inr (List.mem_singleton.mp hu)) (by simp)

/-- C5 counterexample: with the seed `http://a.com`, a page that links to
`http://a.common.org/x` (a different host whose URL string happens to extend
the seed) makes the crawl return that cross-origin URL, because the source
only checks `href.startswith(start_url)`; so "all returned URLs are
same-origin with the seed" is false. -/
theorem crawl_origin_counterexample :
    "http://a.common.org/x" ∈ crawl_links prefix_trap_fetch 10 "http://a.com" 6 ∧
    same_origin "http://a.com" "http://a.common.org/x" = false := by
  decide

/-- C5 amended: `crawl_links(seed, limit)` returns at most `limit` URLs with
no duplicates, every returned URL was itself fetched successfully (so the
seed is included only if its own fetch succeeded), and every returned URL
either extends the seed URL string as a plain string prefix or is the seed —
a prefix check, not a same-origin guarantee. -/
theorem crawl_links_bounded_nodup_extends_seed (fetch : String → Option (List String))
    (fuel : Nat) (start_url : String) (limit : Nat) :
    (crawl_links fetch fuel start_url limit).Nodup ∧
    (crawl_links fetch fuel start_url limit).length ≤ limit ∧
    (∀ u ∈ crawl_links fetch fuel start_url limit,
      (starts_with u start_url = true ∨ u = start_url) ∧ fetch u ≠ none) :=
  ⟨(crawl_links_props fetch fuel start_url limit).1,
   (crawl_links_props fetch fuel start_url limit).2.2,
   (crawl_links_props fetch fuel start_url limit).2.1⟩

/-- Witness for the amended C5 theorem on a concrete two-page site. -/
theorem crawl_links_bounded_nodup_extends_seed_witness :
    (crawl_links small_site_fetch 10 "http://w.org" 6).Nodup ∧
    ((starts_with "http://w.org/a" "http://w.org" = true ∨
        "http://w.org/a" = "http://w.org") ∧
      small_site_fetch "http://w.org/a" ≠ none) :=
  ⟨(crawl_links_bounded_nodup_extends_seed small_site_fetch 10 "http://w.org" 6).1,
   (crawl_links_bounded_nodup_extends_seed small_site_fetch 10 "http://w.org" 6).2.2
     "http://w.org/a" (by decide)⟩

/-- C10 confirmed: the website branch of `load_documents` crawls with a page
limit of 6 — which is also the default limit of `crawl_links` — and
converts at most 6 pages into documents, whichever fetch tier is used. -/
theorem website_load_at_most_six (fetch : String → Option (List String)) (fuel : Nat)
    (pw : Option (String → Option String)) (fallback : String → Option String)
    (url : String) :
    (load_documents_website fetch fuel pw fallback url).length ≤ 6 ∧
    crawl_links_with_default fetch fuel url = crawl_links fetch fuel url 6 := by
  constructor
  · have hc := (crawl_links_props fetch fuel url 6).2.2
    unfold load_documents_website
    cases pw with
    | some render => exact le_trans (List.length_filterMap_le _ _) hc
    | none => exact le_trans (List.length_filterMap_le _ _) hc
  · rfl

/-! ## C8 — batched insertion and persistence order -/

/-- Slicing the empty list yields no batches. -/
theorem batches_go_nil {α : Type} (bs : Nat) :
    ∀ fuel, batches_go bs fuel ([] : List α) = [] := by
  intro fuel
  cases fuel <;> simp [batches_go]

/-- Concatenating the slices reproduces the original list. -/
theorem batches_go_flatten {α : Type} (bs : Nat) (hbs : 0 < bs) :
    ∀ (fuel : Nat) (l : List α), l.length ≤ fuel → (batches_go bs fuel l).flatten = l := by
  intro fuel
  induction fuel with
  | zero =>
    intro l hl
    have hnil : l = [] := List.eq_nil_of_length_eq_zero (Nat.le_zero.mp hl)
    subst hnil
    simp [batches_go]
  | succ fuel ih =>
    intro l hl
    cases l with
    | nil => simp [batches_go]
    | cons x xs =>
      simp only [batches_go, List.flatten_cons]
      rw [ih (List.drop bs (x :: xs)) ?_]
      · exact List.take_append_drop bs (x :: xs)
      · rw [List.length_drop]
        simp only [List.length_cons] at hl ⊢
        omega

/-- Every slice is non-empty and no longer than the batch size. -/
theorem batches_go_sizes {α : Type} (bs : Nat) (hbs : 0 < bs) :
    ∀ (fuel : Nat) (l : List α), ∀ b ∈ batches_go bs fuel l, b.length ≤ bs ∧ b ≠ [] := by
  intro fuel
  induction fuel with
  | zero =>
    intro l b hb
    simp [batches_go] at hb
  | succ fuel ih =>
    intro l b hb
    cases l with
    | nil => simp [batches_go] at hb
    | cons x xs =>
      simp only [batches_go] at hb
      rcases List.mem_cons.mp hb with hhead | htail
      · subst hhead
        constructor
        · rw [List.length_take]
          omega
        · cases bs with
          | zero => omega
          | succ m => simp [List.take_succ_cons]
      · exact ih (List.drop bs (x :: xs)) b htail

/-- Every slice except possibly the last has exactly the batch size. -/
theorem batches_go_dropLast {α : Type} (bs : Nat) (_hbs : 0 < bs) :
    ∀ (fuel : Nat) (l : List α), ∀ b ∈ (batches_go bs fuel l).dropLast, b.length = bs := by
  intro fuel
  induction fuel with
  | zero =>
    intro l b hb
    simp [batches_go] at hb
  | succ fuel ih =>
    intro l b hb
    cases l with
    | nil => simp [batches_go] at hb
    | cons x xs =>
      simp only [batches_go] at hb
      cases hrec : batches_go bs fuel (List.drop bs (x :: xs)) with
      | nil =>
        rw [hrec] at hb
        simp at hb
      | cons y ys =>
        rw [hrec] at hb
        have hd : List.drop bs (x :: xs) ≠ [] := by
          intro h0
          rw [h0, batches_go_nil] at hrec
          cases hrec
        have hblt : bs < (x :: xs).length := by
          have := List.length_pos.mpr hd
          rw [List.length_drop] at this
          omega
        rw [List.dropLast_cons_of_ne_nil (by simp)] at hb
        rcases List.mem_cons.mp hb with hhead | htail
        · subst hhead
          rw [List.length_take]
          omega
        · rw [← hrec] at htail
          exact ih (List.drop bs (x :: xs)) b htail

/-- If every batch insertion succeeded, the insertion events are exactly one
`addBatch` per batch, in batch order. -/
theorem add_batches_ok (embedOk : Nat → Bool) :
    ∀ (bl : List (List String)) (i : Nat), (add_batches embedOk bl i).2 = true →
      (add_batches embedOk bl i).1 = bl.map Ev.addBatch := by
  intro bl
  induction bl with
  | nil => intro i _; rfl
  | cons b bs ih =>
    intro i h
    by_cases he : embedOk i = true
    · simp only [add_batches, he, if_true] at h ⊢
      rw [List.map_cons]
      exact congrArg (Ev.addBatch b :: ·) (ih (i + 1) h)
    · simp [add_batches, he] at h

/-- A cleanup run only emits directory removals. -/
theorem run_cleanup_removals (delOk : String → Bool) (fs : List String) (path : String) :
    ∀ e ∈ (run_cleanup delOk fs path).2, ∃ q, e = Ev.removeDir q := by
  intro e he
  unfold run_cleanup at he
  split_ifs at he with h1 h2
  · rw [List.mem_singleton] at he
    exact ⟨path, he⟩
  · simp at he
  · simp at he

/-- A background task only emits directory removals. -/
theorem run_bg_task_removals (delOk : String → Bool) (fs : List String) (t : BgTask) :
    ∀ e ∈ (run_bg_task delOk fs t).2, ∃ q, e = Ev.removeDir q := by
  cases t with
  | cleanupPath p => exact run_cleanup_removals delOk fs p
  | orphanSweep user_id exclude =>
    suffices hgen : ∀ (items : List String) (st : List String × List Ev),
        (∀ e ∈ st.2, ∃ q, e = Ev.removeDir q) →
        ∀ e ∈ (items.foldl
          (fun st item =>
            let r := run_cleanup delOk st.1 (joinPath VECTOR_STORE_DIR item)
            (r.1, st.2 ++ r.2)) st).2, ∃ q, e = Ev.removeDir q by
      intro e he
      exact hgen (force_delete_candidates user_id (some exclude) fs) (fs, [])
        (by simp) e he
    intro items
    induction items with
    | nil =>
      intro st hst e he
      exact hst e he
    | cons it its ih =>
      intro st hst e he
      refine ih _ ?_ e he
      intro e2 he2
      rcases List.mem_append.mp he2 with hl | hr
      · exact hst e2 hl
      · exact run_cleanup_removals delOk st.1 (joinPath VECTOR_STORE_DIR it) e2 hr

/-- The scheduled background tasks only emit directory removals. -/
theorem run_bg_tasks_removals (delOk : String → Bool) :
    ∀ (ts : List BgTask) (fs : List String),
      ∀ e ∈ (run_bg_tasks delOk ts fs).2, ∃ q, e = Ev.removeDir q := by
  intro ts
  induction ts with
  | nil =>
    intro fs e he
    simp [run_bg_tasks] at he
  | cons t ts ih =>
    intro fs e he
    simp only [run_bg_tasks] at he
    rcases List.mem_append.mp he with hl | hr
    · exact run_bg_task_removals delOk fs t e hl
    · exact ih _ e hr

/-- The run result is the body result. -/
theorem ingest_run_result (user_id : String) (ts : Nat) (old_ptr : Option String)
    (fs0 : List String) (o : IngestOracle) :
    (ingest_run user_id ts old_ptr fs0 o).2 = (ingest_body user_id ts old_ptr fs0 o).result := rfl

/-- The run trace is the body trace followed by background-task removals. -/
theorem ingest_run_events (user_id : String) (ts : Nat) (old_ptr : Option String)
    (fs0 : List String) (o : IngestOracle) :
    (ingest_run user_id ts old_ptr fs0 o).1 =
      (ingest_body user_id ts old_ptr fs0 o).events ++
        (run_bg_tasks o.delOk (ingest_body user_id ts old_ptr fs0 o).tasks
          (run_events fs0 old_ptr (ingest_body user_id ts old_ptr fs0 o).events).1).2 := rfl

/-- Characterisation of a successful body run: the source must have loaded,
split into a non-empty chunk list, inserted every batch, persisted, and
written the pointer, in that order. -/
theorem ingest_body_success (user_id : String) (ts : Nat) (old_ptr : Option String)
    (fs0 : List String) (o : IngestOracle) (p : String)
    (h : (ingest_body user_id ts old_ptr fs0 o).result = some p) :
    ∃ ds, o.documents = some ds ∧
      p = joinPath VECTOR_STORE_DIR (vs_dir_name user_id ts) ∧
      o.splitDocs ds ≠ [] ∧
      (ingest_body user_id ts old_ptr fs0 o).events =
        Ev.createDir (vs_dir_name user_id ts) ::
          (batches BATCH_SIZE (o.splitDocs ds)).map Ev.addBatch
          ++ [Ev.persistStore, Ev.pointerWrite p] := by
  unfold ingest_body at h ⊢
  cases hdocs : o.documents with
  | none => simp [hdocs] at h
  | some docs =>
    rw [hdocs] at h
    by_cases hde : docs = []
    · simp [hde] at h
    · by_cases hse : o.splitDocs docs = []
      · simp [hde, hse] at h
      · by_cases hbr : (add_batches o.embedOk (batches BATCH_SIZE (o.splitDocs docs)) 0).2 = false
        · simp [hde, hse, hbr] at h
        · by_cases hpe : o.persistOk = false
          · simp [hde, hse, hbr, hpe] at h
          · by_cases hdb : o.dbOk = false
            · simp [hde, hse, hbr, hpe, hdb] at h
            · have hbr2 : (add_batches o.embedOk
                  (batches BATCH_SIZE (o.splitDocs docs)) 0).2 = true :=
                Bool.not_eq_false _ ▸ (by simpa using hbr)
              simp [hde, hse, hbr, hpe, hdb] at h ⊢
              have hp : p = joinPath VECTOR_STORE_DIR (vs_dir_name user_id ts) := h.symm
              refine ⟨hp, ?_⟩
              simp [add_batches_ok o.embedOk
                (batches BATCH_SIZE (o.splitDocs docs)) 0 hbr2, hp]

/-- C8 confirmed: on every successful ingestion the chunks are inserted in
fixed-size batches of `BATCH_SIZE = 16` whose concatenation, in insertion
order, is exactly the splitter output (every batch except possibly the last
has exactly `BATCH_SIZE` chunks and none is empty), and the store is
persisted after the last batch insertion and before the pointer write and
the return of the new path; the only events after the pointer write are
background directory removals. -/
theorem builder_batches_and_persist (user_id : String) (ts : Nat)
    (old_ptr : Option String) (fs0 : List String) (o : IngestOracle) (p : String)
    (h : (ingest_run user_id ts old_ptr fs0 o).2 = some p) :
    ∃ ds removals,
      o.documents = some ds ∧
      (batches BATCH_SIZE (o.splitDocs ds)).flatten = o.splitDocs ds ∧
      (∀ b ∈ batches BATCH_SIZE (o.splitDocs ds), b.length ≤ BATCH_SIZE ∧ b ≠ []) ∧
      (∀ b ∈ (batches BATCH_SIZE (o.splitDocs ds)).dropLast, b.length = BATCH_SIZE) ∧
      (∀ e ∈ removals, ∃ q, e = Ev.removeDir q) ∧
      (ingest_run user_id ts old_ptr fs0 o).1 =
        Ev.createDir (vs_dir_name user_id ts) ::
          (batches BATCH_SIZE (o.splitDocs ds)).map Ev.addBatch
          ++ [Ev.persistStore, Ev.pointerWrite p] ++ removals := by
  rw [ingest_run_result] at h
  obtain ⟨ds, hds, hp, hne, hev⟩ := ingest_body_success user_id ts old_ptr fs0 o p h
  refine ⟨ds,
    (run_bg_tasks o.delOk (ingest_body user_id ts old_ptr fs0 o).tasks
      (run_events fs0 old_ptr (ingest_body user_id ts old_ptr fs0 o).events).1).2,
    hds, ?_, ?_, ?_, ?_, ?_⟩
  · exact batches_go_flatten BATCH_SIZE (by decide) _ _ le_rfl
  · exact batches_go_sizes BATCH_SIZE (by decide) _ _
  · exact batches_go_dropLast BATCH_SIZE (by decide) _ _
  · exact run_bg_tasks_removals o.delOk _ _
  · rw [ingest_run_events, hev]

/-- Witness for the C8 theorem: a concrete successful run with two chunks
(one batch) and no prior store. -/
theorem builder_batches_and_persist_witness :
    ∃ ds removals,
      success_oracle.documents = some ds ∧
      (batches BATCH_SIZE (success_oracle.splitDocs ds)).flatten =
        success_oracle.splitDocs ds ∧
      (∀ b ∈ batches BATCH_SIZE (success_oracle.splitDocs ds),
        b.length ≤ BATCH_SIZE ∧ b ≠ []) ∧
      (∀ b ∈ (batches BATCH_SIZE (success_oracle.splitDocs ds)).dropLast,
        b.length = BATCH_SIZE) ∧
      (∀ e ∈ removals, ∃ q, e = Ev.removeDir q) ∧
      (ingest_run "u8" 5 none [] success_oracle).1 =
        Ev.createDir (vs_dir_name "u8" 5) ::
          (batches BATCH_SIZE (success_oracle.splitDocs ds)).map Ev.addBatch
          ++ [Ev.persistStore,
            Ev.pointerWrite (joinPath VECTOR_STORE_DIR (vs_dir_name "u8" 5))] ++ removals :=
  builder_batches_and_persist "u8" 5 none [] success_oracle
    (joinPath VECTOR_STORE_DIR (vs_dir_name "u8" 5)) (by decide)

/-! ## C1 and C2 — pointer lifecycle under a failing promotion

`create_or_update_vector_store` schedules the deletion of the previously
active directory (lines 221-225) before it writes the new pointer (lines
228-232).  If the pointer write raises, the call fails, the pointer still
references the old path, and the already-scheduled background cleanup then
deletes that very directory. -/

/-- C1 evaluation at the failing input: every step succeeds except the
`update_one` pointer write.  The ingestion call fails (`result = none`) and
leaves the pointer value unchanged, but after the scheduled background
cleanup runs, the pointer references a directory that no longer exists —
contradicting the claim that ingestion never leaves the pointer referencing
a non-existent index. -/
theorem pointer_dangling_on_db_failure :
    (ingest_run "tenantA" 200 (some (joinPath VECTOR_STORE_DIR (vs_dir_name "tenantA" 100)))
      [vs_dir_name "tenantA" 100] pointer_write_fails_oracle).2 = none ∧
    (ingest_final "tenantA" 200 (some (joinPath VECTOR_STORE_DIR (vs_dir_name "tenantA" 100)))
      [vs_dir_name "tenantA" 100] pointer_write_fails_oracle).2 =
      some (joinPath VECTOR_STORE_DIR (vs_dir_name "tenantA" 100)) ∧
    vs_dir_name "tenantA" 100 ∉
      (ingest_final "tenantA" 200 (some (joinPath VECTOR_STORE_DIR (vs_dir_name "tenantA" 100)))
        [vs_dir_name "tenantA" 100] pointer_write_fails_oracle).1 := by
  decide

/-- C2 evaluation at the failing input: in the same failing-pointer-write
run, the trace contains a removal of the old index directory at a moment
when the tenant pointer still references exactly that path, contradicting
the claim that a version directory is removed only after it is no longer
the active pointer. -/
theorem old_store_removed_while_active :
    removed_while_active (some (joinPath VECTOR_STORE_DIR (vs_dir_name "tenantB" 300)))
      (ingest_run "tenantB" 301 (some (joinPath VECTOR_STORE_DIR (vs_dir_name "tenantB" 300)))
        [vs_dir_name "tenantB" 300] pointer_write_fails_oracle).1 = true ∧
    (ingest_run "tenantB" 301 (some (joinPath VECTOR_STORE_DIR (vs_dir_name "tenantB" 300)))
      [vs_dir_name "tenantB" 300] pointer_write_fails_oracle).2 = none := by
  decide

end AimsgHub
